import Mathlib

/-!
A shallow embedding of the AVI writer of `src/src/gwavi.c` (libgwavi).

Modelling conventions:
* Machine integers are embedded as `Nat`/`Int`.  Where the C source visibly
  truncates to a 32-bit quantity (the `(int)` casts on index entries and on
  the values handed to `write_int`, whose 4 little-endian bytes land in the
  file) the embedding takes the value `% 2^32`, i.e. the bit pattern of the
  stored 32-bit word.
* The output `FILE *` is embedded as a `Sink`: a byte list, a position, and a
  log recording every write operation `(offset, bytes)` in issue order.
* The byte-sink primitives `write_int`, `write_chars_bin`, `write_index` and
  `write_avi_header_chunk` live in `fileio.c` / `avi-utils.c`, which are not
  part of the given sources; they are modelled from the spec (section 6) where
  so marked.
* Fallibility: writes can be made to fail through a `WriteFaults` oracle and
  the index-buffer `realloc` through an `allocOk` flag, mirroring the failure
  points of the C code.  A `none` offsets buffer models the NULL pointer that
  an unchecked failing `realloc` leaves behind; storing through it is the
  `AddResult.crash` outcome (undefined behaviour in C).
-/

/-- Chunk padding, `gwavi.c` lines 222-224 and 275-277:
`maxi_pad = len % 4; if (maxi_pad > 0) maxi_pad = 4 - maxi_pad;`. -/
def maxi_pad (len : Nat) : Nat :=
  let m := len % 4
  if m > 0 then 4 - m else m

/-- The index entry recorded for a video frame, `gwavi.c` line 232:
`(int)(len + maxi_pad)` — the 32-bit pattern of `len + maxi_pad`. -/
def videoEntry (len : Nat) : Nat := (len + maxi_pad len) % 2^32

/-- The index entry recorded for an audio chunk, `gwavi.c` line 285:
`(int)((len + maxi_pad) | 0x80000000)`. -/
def audioEntry (len : Nat) : Nat := ((len + maxi_pad len) ||| 0x80000000) % 2^32

/-- The four little-endian bytes of the 32-bit word `v` (low byte first). -/
def le32 (v : Nat) : List Nat :=
  [v % 256, v / 256 % 256, v / 65536 % 256, v / 16777216 % 256]

/-- The little-endian bytes of a C `int`: the bit pattern of `v` mod `2^32`. -/
def le32I (v : Int) : List Nat := le32 (v % (2^32 : Int)).toNat

/-- Byte overwrite at an offset, extending the list when the write runs past
its end (a seekable file). -/
def storeBytes (d : List Nat) (off : Nat) (bs : List Nat) : List Nat :=
  (List.range (max d.length (off + bs.length))).map
    (fun i => if off ≤ i ∧ i < off + bs.length then bs.getD (i - off) 0 else d.getD i 0)

/-- The output file: bytes, current position, and the log of write operations
`(offset, bytes written)` in the order they were issued. -/
structure Sink where
  data : List Nat
  pos : Nat
  log : List (Nat × List Nat)

/-- Modelled from the spec: `writeBytes` (section 6) — write raw bytes at the
current position (the `write_chars_bin` / `fwrite` primitive of `fileio.c`,
absent from the given sources). -/
def writeBytes (s : Sink) (bs : List Nat) : Sink :=
  { data := storeBytes s.data s.pos bs
    pos := s.pos + bs.length
    log := s.log ++ [(s.pos, bs)] }

/-- Modelled from the spec: `writeU32LE` (section 6) — `write_int` of
`fileio.c` writes the four little-endian bytes of a 32-bit `int`. -/
def write_int (s : Sink) (v : Int) : Sink := writeBytes s (le32I v)

/-- An `fseek` on the sink. -/
def seekTo (s : Sink) (p : Nat) : Sink := { s with pos := p }

/-- Read `n` bytes at offset `off` (bytes past the end read as 0). -/
def readD (d : List Nat) (off n : Nat) : List Nat :=
  (List.range n).map fun i => d.getD (off + i) 0

/- Chunk and list tags as byte lists. -/

/-- Tag bytes of `"RIFF"`. -/
def tagRIFF : List Nat := [0x52, 0x49, 0x46, 0x46]

/-- Tag bytes of `"AVI "`. -/
def tagAVI : List Nat := [0x41, 0x56, 0x49, 0x20]

/-- Tag bytes of `"LIST"`. -/
def tagLIST : List Nat := [0x4C, 0x49, 0x53, 0x54]

/-- Tag bytes of `"movi"`. -/
def tagMovi : List Nat := [0x6D, 0x6F, 0x76, 0x69]

/-- Tag bytes of `"00dc"`, the video frame chunk tag. -/
def tag00dc : List Nat := [0x30, 0x30, 0x64, 0x63]

/-- Tag bytes of `"01wb"`, the audio chunk tag. -/
def tag01wb : List Nat := [0x30, 0x31, 0x77, 0x62]

/-- Tag bytes of `"idx1"`. -/
def tagIdx1 : List Nat := [0x69, 0x64, 0x78, 0x31]

/-- Tag bytes of `"avih"`. -/
def tagAvih : List Nat := [0x61, 0x76, 0x69, 0x68]

/-- Byte list of the `"vids"` stream type tag. -/
def tagVids : List Nat := [0x76, 0x69, 0x64, 0x73]

/-- Byte list of the `"auds"` stream type tag. -/
def tagAuds : List Nat := [0x61, 0x75, 0x64, 0x73]

/- The header data model.  `gwavi.h` is not among the given sources, so the
structures carry exactly the fields `gwavi.c` reads or writes; counters are
unbounded naturals per the spec's semantic field descriptions (section 3). -/

/-- AVI main header fields used by `gwavi.c`. -/
structure AviHeader where
  time_delay : Int
  data_rate : Int
  flags : Nat
  data_streams : Nat
  number_of_frames : Nat
  width : Int
  height : Int
  buffer_size : Int

/-- Video stream header fields used by `gwavi.c`. -/
structure StreamHeaderV where
  data_type : List Nat
  codec : List Nat
  time_scale : Nat
  data_rate : Int
  buffer_size : Int
  data_length : Nat

/-- Video stream format fields used by `gwavi.c`. -/
structure StreamFormatV where
  header_size : Nat
  width : Int
  height : Int
  num_planes : Nat
  bits_per_pixel : Nat
  compression_type : Nat
  image_size : Int
  colors_used : Nat
  colors_important : Nat
  palette : Nat
  palette_count : Nat

/-- Audio stream header fields used by `gwavi.c`. -/
structure StreamHeaderA where
  data_type : List Nat
  codec : List Nat
  time_scale : Nat
  data_rate : Nat
  buffer_size : Nat
  quality : Int
  sample_size : Nat
  data_length : Nat

/-- Audio stream format fields used by `gwavi.c`. -/
structure StreamFormatA where
  format_type : Nat
  channels : Nat
  sample_rate : Nat
  bytes_per_second : Nat
  block_align : Nat
  bits_per_sample : Nat
  size : Nat

/-- The audio configuration `struct gwavi_audio_t`. -/
structure GwaviAudio where
  channels : Nat
  bits : Nat
  samples_per_second : Nat

/-- A 4-byte FourCC; each field is the unsigned value of one byte. -/
structure FourCC where
  b0 : Nat
  b1 : Nat
  b2 : Nat
  b3 : Nat

/-- The writer state `struct gwavi_t`. -/
structure Gwavi where
  out : Sink
  avi_header : AviHeader
  stream_header_v : StreamHeaderV
  stream_format_v : StreamFormatV
  stream_header_a : StreamHeaderA
  stream_format_a : StreamFormatA
  marker : Nat
  offsets_ptr : Nat
  offsets_len : Nat
  offset_count : Nat
  offsets : Option (List Nat)

/-- The all-zero audio stream header left by `memset(gwavi, 0, ...)`
(`gwavi.c` line 86) when no audio track is configured. -/
def zeroStreamHeaderA : StreamHeaderA :=
  { data_type := [0, 0, 0, 0], codec := [0, 0, 0, 0], time_scale := 0,
    data_rate := 0, buffer_size := 0, quality := 0, sample_size := 0,
    data_length := 0 }

/-- The all-zero audio stream format left by `memset`. -/
def zeroStreamFormatA : StreamFormatA :=
  { format_type := 0, channels := 0, sample_rate := 0, bytes_per_second := 0,
    block_align := 0, bits_per_sample := 0, size := 0 }

/-- The value of one `char` of the FourCC after the C cast `(int)fourcc[k]`:
`char` is signed on the library's reference platforms, so bytes at and above
0x80 sign-extend. -/
def cChar (b : Nat) : Int :=
  if b % 256 < 128 then (b % 256 : Int) else (b % 256 : Int) - 256

/-- The compression code computed at `gwavi.c` lines 120-124 and 420-424:
`((int)fourcc[3] << 24) + ((int)fourcc[2] << 16) + ((int)fourcc[1] << 8) +
((int)fourcc[0])`, stored as a 32-bit word. -/
def compressionType (f : FourCC) : Nat :=
  ((cChar f.b3 * 2^24 + cChar f.b2 * 2^16 + cChar f.b1 * 2^8 + cChar f.b0) %
    (2^32 : Int)).toNat

/-- Modelled from the spec: the AVI main-header chunk layout (section 6) —
`write_avi_header_chunk` lives in `avi-utils.c`, absent from the given
sources.  Tag `"avih"`, size 56, then the 14 little-endian 32-bit fields in
the documented order (time delay, max data rate, padding granularity 0,
flags, frame count, initial frames 0, stream count, suggested buffer size,
width, height, 4 reserved zero fields). -/
def aviHeaderChunkBytes (h : AviHeader) : List Nat :=
  tagAvih ++ le32 56 ++
  le32I h.time_delay ++ le32I h.data_rate ++ le32 0 ++ le32 h.flags ++
  le32 h.number_of_frames ++ le32 0 ++ le32 h.data_streams ++
  le32I h.buffer_size ++ le32I h.width ++ le32I h.height ++
  le32 0 ++ le32 0 ++ le32 0 ++ le32 0

/-- The tag reconstructed for an index entry at close time: bit 31 set means
audio (`"01wb"`), clear means video (`"00dc"`) — spec section 4.4. -/
def idxTag (e : Nat) : List Nat := if e.testBit 31 then tag01wb else tag00dc

/-- Modelled from the spec: one 16-byte `idx1` record (section 6): tag, flags
(0x10 for audio per section 4.5's stated convention, 0 for video — no claim
depends on the flag byte), offset from the start of the `movi` payload, and
the chunk size (the low 31 bits of the entry). -/
def idxRecord (off e : Nat) : List Nat :=
  idxTag e ++ le32 (if e.testBit 31 then 0x10 else 0) ++ le32 off ++ le32 (e % 2^31)

/-- The records of the `idx1` chunk, walking the recorded entries with the
running offset (the first chunk sits 4 bytes past the `"movi"` tag). -/
def idxRecords : Nat → List Nat → List Nat
  | _, [] => []
  | off, e :: es => idxRecord off e ++ idxRecords (off + 8 + e % 2^31) es

/-- Modelled from the spec: `writeIndexTable` (section 6) — `write_index` of
`avi-utils.c`, absent from the given sources: tag `"idx1"`, byte length
`count * 16`, then one 16-byte record per entry. -/
def indexBytes (count : Nat) (es : List Nat) : List Nat :=
  tagIdx1 ++ le32 (count * 16) ++ idxRecords 4 es

/-- `gwavi_open`, `gwavi.c` lines 69-202, with the file and allocation
primitives assumed to succeed.  Populates the header model (branching on the
audio configuration), writes the header skeleton with the two zero size
placeholders, records `marker`, and allocates the 1024-entry offsets
buffer. -/
def gwavi_open (width height : Int) (fourcc : FourCC) (fps : Int)
    (audioCfg : Option GwaviAudio) : Gwavi :=
  let avih : AviHeader :=
    { time_delay := Int.tdiv 1000000 fps
      data_rate := width * height * 3
      flags := 0x10
      data_streams := if audioCfg.isSome then 2 else 1
      number_of_frames := 0
      width := width
      height := height
      buffer_size := width * height * 3 }
  let shv : StreamHeaderV :=
    { data_type := tagVids
      codec := [fourcc.b0 % 256, fourcc.b1 % 256, fourcc.b2 % 256, fourcc.b3 % 256]
      time_scale := 1
      data_rate := fps
      buffer_size := width * height * 3
      data_length := 0 }
  let sfv : StreamFormatV :=
    { header_size := 40
      width := width
      height := height
      num_planes := 1
      bits_per_pixel := 24
      compression_type := compressionType fourcc
      image_size := width * height * 3
      colors_used := 0
      colors_important := 0
      palette := 0
      palette_count := 0 }
  let sha : StreamHeaderA :=
    match audioCfg with
    | none => zeroStreamHeaderA
    | some a =>
      { data_type := tagAuds
        codec := [1, 0, 0, 0]
        time_scale := 1
        data_rate := a.samples_per_second
        buffer_size := a.channels * (a.bits / 8) * a.samples_per_second
        quality := -1
        sample_size := (a.bits / 8) * a.channels
        data_length := 0 }
  let sfa : StreamFormatA :=
    match audioCfg with
    | none => zeroStreamFormatA
    | some a =>
      { format_type := 1
        channels := a.channels
        sample_rate := a.samples_per_second
        bytes_per_second := a.channels * (a.bits / 8) * a.samples_per_second
        block_align := a.channels * (a.bits / 8)
        bits_per_sample := a.bits
        size := 0 }
  let s : Sink := { data := [], pos := 0, log := [] }
  let s := writeBytes s tagRIFF
  let s := write_int s 0
  let s := writeBytes s tagAVI
  let s := writeBytes s (aviHeaderChunkBytes avih)
  let s := writeBytes s tagLIST
  let marker := s.pos
  let s := write_int s 0
  let s := writeBytes s tagMovi
  { out := s
    avi_header := avih
    stream_header_v := shv
    stream_format_v := sfv
    stream_header_a := sha
    stream_format_a := sfa
    marker := marker
    offsets_ptr := 0
    offsets_len := 1024
    offset_count := 0
    offsets := some [] }

/-- Which of an append's fallible write steps succeed: the chunk tag
(`write_chars_bin`), the length word (`write_int`), the payload (`fwrite`),
and the padding bytes (`fputc`; a failing first `fputc` is modelled). -/
structure WriteFaults where
  tagOk : Bool
  lenOk : Bool
  payloadOk : Bool
  padOk : Bool

/-- The fault-free oracle: every write succeeds. -/
def allOk : WriteFaults := { tagOk := true, lenOk := true, payloadOk := true, padOk := true }

/-- The outcome of an append: `ok` is the C return 0, `err` the C return -1,
and `crash` the NULL-pointer store after an unchecked failing `realloc`
(undefined behaviour — the function neither returns 0 nor -1). -/
inductive AddResult where
  | ok
  | err
  | crash
deriving DecidableEq

/-- The `len` payload bytes handed to `fwrite`: `buffer[0..len)`. -/
def payloadBytes (buffer : Nat → Nat) (len : Nat) : List Nat :=
  (List.range len).map buffer

/-- `gwavi_add_frame`, `gwavi.c` lines 213-256.  `allocOk` tells whether the
(unchecked) `realloc` succeeds when the growth branch is taken; `wf` tells
which write steps succeed.  Counters are bumped and the index entry recorded
before any write is attempted, exactly as in the source. -/
def gwavi_add_frame (g : Gwavi) (buffer : Nat → Nat) (len : Nat)
    (allocOk : Bool) (wf : WriteFaults) : AddResult × Gwavi :=
  let g1 := { g with offset_count := g.offset_count + 1,
                     stream_header_v.data_length := g.stream_header_v.data_length + 1 }
  let pad := maxi_pad len
  let g2 := if g1.offsets_len ≤ g1.offset_count
            then { g1 with offsets_len := g1.offsets_len + 1024,
                           offsets := if allocOk then g1.offsets else none }
            else g1
  match g2.offsets with
  | none => (.crash, g2)
  | some l =>
    let g3 := { g2 with offsets := some (l ++ [videoEntry len]),
                        offsets_ptr := g2.offsets_ptr + 1 }
    if wf.tagOk = false then (.err, g3) else
    let g4 := { g3 with out := writeBytes g3.out tag00dc }
    if wf.lenOk = false then (.err, g4) else
    let g5 := { g4 with out := write_int g4.out ((len : Int) + (pad : Int)) }
    if wf.payloadOk = false then (.err, g5) else
    let g6 := { g5 with out := writeBytes g5.out (payloadBytes buffer len) }
    if pad ≠ 0 ∧ wf.padOk = false then (.err, g6) else
    let g7 := if pad = 0 then g6
              else { g6 with out := writeBytes g6.out (List.replicate pad 0) }
    (.ok, g7)

/-- `gwavi_add_audio`, `gwavi.c` lines 267-311.  Same shape as
`gwavi_add_frame` except: no video frame count bump, the `"01wb"` tag, the
index entry carries bit 31, and on full success the audio stream header's
`data_length` accumulates `(int)(len + maxi_pad)` (line 308) — the cast
truncates the increment to its 32-bit pattern `(len + maxi_pad) % 2^32`
before it reaches the field (the field itself is an unbounded counter here,
its width living in the absent `gwavi.h`). -/
def gwavi_add_audio (g : Gwavi) (buffer : Nat → Nat) (len : Nat)
    (allocOk : Bool) (wf : WriteFaults) : AddResult × Gwavi :=
  let g1 := { g with offset_count := g.offset_count + 1 }
  let pad := maxi_pad len
  let g2 := if g1.offsets_len ≤ g1.offset_count
            then { g1 with offsets_len := g1.offsets_len + 1024,
                           offsets := if allocOk then g1.offsets else none }
            else g1
  match g2.offsets with
  | none => (.crash, g2)
  | some l =>
    let g3 := { g2 with offsets := some (l ++ [audioEntry len]),
                        offsets_ptr := g2.offsets_ptr + 1 }
    if wf.tagOk = false then (.err, g3) else
    let g4 := { g3 with out := writeBytes g3.out tag01wb }
    if wf.lenOk = false then (.err, g4) else
    let g5 := { g4 with out := write_int g4.out ((len : Int) + (pad : Int)) }
    if wf.payloadOk = false then (.err, g5) else
    let g6 := { g5 with out := writeBytes g5.out (payloadBytes buffer len) }
    if pad ≠ 0 ∧ wf.padOk = false then (.err, g6) else
    let g7 := if pad = 0 then g6
              else { g6 with out := writeBytes g6.out (List.replicate pad 0) }
    (.ok, { g7 with stream_header_a.data_length :=
                      g7.stream_header_a.data_length + (len + pad) % 2^32 })

/-- `gwavi_close`, `gwavi.c` lines 322-389, with the seek/write primitives
succeeding: patch the `movi` list size at `marker`, append the index, set
the final frame count, rewrite the header chunk at offset 12, and patch the
RIFF size at offset 4 — in this order, seeking back after every patch.
`offsets := none` models `free(gwavi->offsets)`. -/
def gwavi_close (g : Gwavi) : Gwavi :=
  let t := g.out.pos
  let s := seekTo g.out g.marker
  let s := write_int s ((t : Int) - (g.marker : Int) - 4)
  let s := seekTo s t
  let s := writeBytes s (indexBytes g.offset_count (g.offsets.getD []))
  let avih := { g.avi_header with number_of_frames := g.stream_header_v.data_length }
  let t2 := s.pos
  let s := seekTo s 12
  let s := writeBytes s (aviHeaderChunkBytes avih)
  let s := seekTo s t2
  let t3 := s.pos
  let s := seekTo s 4
  let s := write_int s ((t3 : Int) - 8)
  let s := seekTo s t3
  { g with out := s, avi_header := avih, offsets := none }

/-- The truncated result of `(int)(1000000.0 / fps)` in `gwavi_set_framerate`
(`gwavi.c` line 404); the double division is embedded as truncating integer
division (no claim depends on this value). -/
def framerateTimeDelay (fps : Int) : Int := Int.tdiv 1000000 fps

/-- `gwavi_set_framerate`, `gwavi.c` lines 400-405. -/
def gwavi_set_framerate (g : Gwavi) (fps : Int) : Gwavi :=
  { g with stream_header_v.data_rate := fps,
           avi_header.time_delay := framerateTimeDelay fps }

/-- `gwavi_set_codec`, `gwavi.c` lines 416-425. -/
def gwavi_set_codec (g : Gwavi) (fourcc : FourCC) : Gwavi :=
  { g with stream_header_v.codec :=
             [fourcc.b0 % 256, fourcc.b1 % 256, fourcc.b2 % 256, fourcc.b3 % 256],
           stream_format_v.compression_type := compressionType fourcc }

/-- `gwavi_set_size`, `gwavi.c` lines 437-450. -/
def gwavi_set_size (g : Gwavi) (width height : Int) : Gwavi :=
  let size := width * height * 3
  { g with avi_header.data_rate := size,
           avi_header.width := width,
           avi_header.height := height,
           avi_header.buffer_size := size,
           stream_header_v.buffer_size := size,
           stream_format_v.width := width,
           stream_format_v.height := height,
           stream_format_v.image_size := size }

/-- One successful append call, for reasoning about interleavings. -/
inductive WriterOp where
  | frame (buffer : Nat → Nat) (len : Nat)
  | audioChunk (buffer : Nat → Nat) (len : Nat)

/-- Run a sequence of appends fault-free. -/
def runOps (g : Gwavi) (ops : List WriterOp) : Gwavi :=
  ops.foldl
    (fun g op =>
      match op with
      | .frame b len => (gwavi_add_frame g b len true allOk).2
      | .audioChunk b len => (gwavi_add_audio g b len true allOk).2)
    g

/-- The number of video frames among the appends. -/
def countFrames (ops : List WriterOp) : Nat :=
  (ops.filter (fun op => match op with | .frame _ _ => true | _ => false)).length

/-- The total `len + maxi_pad` over the audio appends (untruncated). -/
def audioSum (ops : List WriterOp) : Nat :=
  (ops.map (fun op => match op with | .frame _ _ => 0 | .audioChunk _ len => len + maxi_pad len)).sum

/-- The total of the `(int)`-cast increments `(len + maxi_pad) % 2^32` that
`gwavi_add_audio` actually accumulates (line 308) over the audio appends. -/
def audioSum32 (ops : List WriterOp) : Nat :=
  (ops.map (fun op => match op with
    | .frame _ _ => 0
    | .audioChunk _ len => (len + maxi_pad len) % 2^32)).sum

/-- The index entries the appends record, in order. -/
def entriesOf (ops : List WriterOp) : List Nat :=
  ops.map (fun op => match op with
    | .frame _ len => videoEntry len
    | .audioChunk _ len => audioEntry len)

/-! ### Basic facts about the byte sink -/

theorem length_storeBytes (d : List Nat) (off : Nat) (bs : List Nat) :
    (storeBytes d off bs).length = max d.length (off + bs.length) := by
  simp [storeBytes]

theorem storeBytes_eq_append (d bs : List Nat) : storeBytes d d.length bs = d ++ bs := by
  apply List.ext_getElem
  · simp [length_storeBytes]
  · intro i h1 h2
    simp only [storeBytes, List.getElem_map, List.getElem_range]
    by_cases hi : i < d.length
    · rw [if_neg (by omega), List.getElem_append_left hi, List.getD_eq_getElem _ _ hi]
    · rw [if_pos (by simp [length_storeBytes] at h1; omega)]
      rw [List.getElem_append_right (by omega)]
      exact List.getD_eq_getElem _ _ (by simp at h2; omega)

theorem getD_storeBytes (d : List Nat) (off : Nat) (bs : List Nat) (i : Nat) :
    (storeBytes d off bs).getD i 0 =
      if off ≤ i ∧ i < off + bs.length then bs.getD (i - off) 0 else d.getD i 0 := by
  by_cases hi : i < max d.length (off + bs.length)
  · rw [List.getD_eq_getElem _ _ (by simp [length_storeBytes]; omega)]
    simp only [storeBytes, List.getElem_map, List.getElem_range]
  · have h1 : (storeBytes d off bs).getD i 0 = 0 := by
      rw [List.getD_eq_default]
      rw [length_storeBytes]; omega
    have h2 : ¬(off ≤ i ∧ i < off + bs.length) := by omega
    rw [h1, if_neg h2, List.getD_eq_default]
    omega

theorem readD_storeBytes_self (d : List Nat) (off : Nat) (bs : List Nat) (n : Nat)
    (h : bs.length = n) : readD (storeBytes d off bs) off n = bs := by
  subst h
  apply List.ext_getElem
  · simp [readD]
  · intro i h1 h2
    simp only [readD, List.getElem_map, List.getElem_range]
    rw [getD_storeBytes, if_pos (by simp [readD] at h1; omega)]
    simp only [Nat.add_sub_cancel_left]
    exact List.getD_eq_getElem _ _ h2

theorem readD_storeBytes_left (d : List Nat) (off off' : Nat) (bs : List Nat) (n : Nat)
    (h : off' + n ≤ off) : readD (storeBytes d off bs) off' n = readD d off' n := by
  apply List.ext_getElem
  · simp [readD]
  · intro i h1 h2
    simp only [readD, List.getElem_map, List.getElem_range]
    rw [getD_storeBytes, if_neg (by simp [readD] at h1; omega)]

theorem readD_storeBytes_right (d : List Nat) (off off' : Nat) (bs : List Nat) (n : Nat)
    (h : off + bs.length ≤ off') : readD (storeBytes d off bs) off' n = readD d off' n := by
  apply List.ext_getElem
  · simp [readD]
  · intro i h1 h2
    simp only [readD, List.getElem_map, List.getElem_range]
    rw [getD_storeBytes, if_neg (by omega)]

/-! ### Arithmetic facts about padding, entries and byte encodings -/

theorem maxi_pad_eq (len : Nat) : maxi_pad len = (4 - len % 4) % 4 := by
  have h : len % 4 < 4 := Nat.mod_lt _ (by decide)
  simp only [maxi_pad]
  split <;> omega

theorem maxi_pad_lt (len : Nat) : maxi_pad len < 4 := by
  rw [maxi_pad_eq]; omega

theorem dvd_four_add_maxi_pad (len : Nat) : (len + maxi_pad len) % 4 = 0 := by
  have h : len % 4 < 4 := Nat.mod_lt _ (by decide)
  rw [maxi_pad_eq]
  omega

theorem le32_mod (v : Nat) : le32 (v % 2^32) = le32 v := by
  simp only [le32]
  refine congrArg₂ _ ?_ (congrArg₂ _ ?_ (congrArg₂ _ ?_ (congrArg₂ _ ?_ rfl)))
  · exact Nat.mod_mod_of_dvd v (by norm_num)
  · rw [← Nat.mod_mul_right_div_self, ← Nat.mod_mul_right_div_self,
      Nat.mod_mod_of_dvd _ (by norm_num : (256 * 256 : ℕ) ∣ 2^32)]
  · rw [← Nat.mod_mul_right_div_self, ← Nat.mod_mul_right_div_self,
      Nat.mod_mod_of_dvd _ (by norm_num : (65536 * 256 : ℕ) ∣ 2^32)]
  · rw [← Nat.mod_mul_right_div_self, ← Nat.mod_mul_right_div_self,
      Nat.mod_mod_of_dvd _ (by norm_num : (16777216 * 256 : ℕ) ∣ 2^32)]

theorem le32I_natCast (n : Nat) : le32I (n : Int) = le32 n := by
  have h : ((n : Int) % ((2:Int)^32)).toNat = n % 2^32 := by
    have h2 : ((2:Int)^32) = (4294967296 : Int) := by norm_num
    rw [h2]
    omega
  simp only [le32I, h, le32_mod]

theorem length_le32 (v : Nat) : (le32 v).length = 4 := rfl

theorem length_le32I (v : Int) : (le32I v).length = 4 := rfl

theorem lor_two_pow_of_lt {a n : Nat} (h : a < 2^n) : a ||| 2^n = a + 2^n := by
  apply Nat.eq_of_testBit_eq
  intro i
  rw [Nat.testBit_lor, Nat.add_comm a]
  rcases Nat.lt_trichotomy i n with hi | hi | hi
  · rw [Nat.testBit_two_pow_add_gt hi, Nat.testBit_two_pow_of_ne (by omega), Bool.or_false]
  · subst hi
    rw [Nat.testBit_two_pow_add_eq, Nat.testBit_lt_two_pow h, Nat.testBit_two_pow_self]
    rfl
  · have hb : 2^n + a < 2^i := by
      calc 2^n + a < 2^n + 2^n := by omega
      _ = 2^(n+1) := by rw [Nat.pow_succ]; omega
      _ ≤ 2^i := Nat.pow_le_pow_right (by omega) (by omega)
    rw [Nat.testBit_lt_two_pow hb, Nat.testBit_lt_two_pow (by calc a < 2^n := h
          _ ≤ 2^i := Nat.pow_le_pow_right (by omega) (by omega)),
      Nat.testBit_two_pow_of_ne (by omega)]
    rfl

theorem videoEntry_of_lt {len : Nat} (h : len + maxi_pad len < 2^32) :
    videoEntry len = len + maxi_pad len := by
  simp only [videoEntry]
  exact Nat.mod_eq_of_lt h

theorem audioEntry_of_lt {len : Nat} (h : len + maxi_pad len < 2^31) :
    audioEntry len = (len + maxi_pad len) + 2^31 := by
  simp only [audioEntry]
  rw [show (0x80000000 : Nat) = 2^31 by norm_num, lor_two_pow_of_lt h]
  exact Nat.mod_eq_of_lt (by omega)

theorem maxi_pad_of_mod_eq_zero {x : Nat} (hm4 : x % 4 = 0) : maxi_pad x = 0 := by
  rw [maxi_pad_eq, hm4]

theorem audioEntry_no_pad {x : Nat} (hmp : maxi_pad x = 0) :
    audioEntry x = (x ||| 0x80000000) % 2^32 := by
  simp only [audioEntry, hmp, Nat.add_zero]

theorem lor_high_bit_mod {y : Nat} (hlt : y < 2^31) :
    (y ||| 0x80000000) % 2^32 = (y + 2^31) % 2^32 := by
  rw [show (0x80000000 : Nat) = 2^31 from by norm_num, lor_two_pow_of_lt hlt]

/-! ### Characterization of the append operations -/

/-- The sink operations a fault-free `gwavi_add_frame` performs, in order. -/
def frameSinkWrites (s : Sink) (buffer : Nat → Nat) (len : Nat) : Sink :=
  let s := writeBytes s tag00dc
  let s := write_int s ((len : Int) + (maxi_pad len : Int))
  let s := writeBytes s (payloadBytes buffer len)
  if maxi_pad len = 0 then s else writeBytes s (List.replicate (maxi_pad len) 0)

/-- The sink operations a fault-free `gwavi_add_audio` performs, in order. -/
def audioSinkWrites (s : Sink) (buffer : Nat → Nat) (len : Nat) : Sink :=
  let s := writeBytes s tag01wb
  let s := write_int s ((len : Int) + (maxi_pad len : Int))
  let s := writeBytes s (payloadBytes buffer len)
  if maxi_pad len = 0 then s else writeBytes s (List.replicate (maxi_pad len) 0)

theorem gwavi_add_frame_allOk (g : Gwavi) (buffer : Nat → Nat) (len : Nat) (l : List Nat)
    (hoff : g.offsets = some l) :
    gwavi_add_frame g buffer len true allOk =
      (.ok,
        { g with
          offset_count := g.offset_count + 1,
          stream_header_v.data_length := g.stream_header_v.data_length + 1,
          offsets_len := if g.offsets_len ≤ g.offset_count + 1
                         then g.offsets_len + 1024 else g.offsets_len,
          offsets := some (l ++ [videoEntry len]),
          offsets_ptr := g.offsets_ptr + 1,
          out := frameSinkWrites g.out buffer len }) := by
  by_cases hg : g.offsets_len ≤ g.offset_count + 1 <;>
    by_cases hp : maxi_pad len = 0 <;>
    simp [gwavi_add_frame, frameSinkWrites, allOk, hg, hp, hoff]

theorem gwavi_add_audio_allOk (g : Gwavi) (buffer : Nat → Nat) (len : Nat) (l : List Nat)
    (hoff : g.offsets = some l) :
    gwavi_add_audio g buffer len true allOk =
      (.ok,
        { g with
          offset_count := g.offset_count + 1,
          stream_header_a.data_length :=
            g.stream_header_a.data_length + (len + maxi_pad len) % 2^32,
          offsets_len := if g.offsets_len ≤ g.offset_count + 1
                         then g.offsets_len + 1024 else g.offsets_len,
          offsets := some (l ++ [audioEntry len]),
          offsets_ptr := g.offsets_ptr + 1,
          out := audioSinkWrites g.out buffer len }) := by
  by_cases hg : g.offsets_len ≤ g.offset_count + 1 <;>
    by_cases hp : maxi_pad len = 0 <;>
    simp [gwavi_add_audio, audioSinkWrites, allOk, hg, hp, hoff]

theorem writeBytes_data_of_pos (s : Sink) (bs : List Nat) (hpos : s.pos = s.data.length) :
    (writeBytes s bs).data = s.data ++ bs := by
  simp [writeBytes, hpos, storeBytes_eq_append]

theorem writeBytes_pos (s : Sink) (bs : List Nat) :
    (writeBytes s bs).pos = s.pos + bs.length := rfl

theorem length_payloadBytes (buffer : Nat → Nat) (len : Nat) :
    (payloadBytes buffer len).length = len := by
  simp [payloadBytes]

theorem writeBytes_ok (s : Sink) (bs : List Nat) (hpos : s.pos = s.data.length) :
    (writeBytes s bs).data = s.data ++ bs ∧
    (writeBytes s bs).pos = (writeBytes s bs).data.length := by
  constructor
  · simp [writeBytes, hpos, storeBytes_eq_append]
  · simp [writeBytes, hpos, storeBytes_eq_append]

theorem frameSinkWrites_data (s : Sink) (buffer : Nat → Nat) (len : Nat)
    (hpos : s.pos = s.data.length) :
    (frameSinkWrites s buffer len).data =
      s.data ++ tag00dc ++ le32 (len + maxi_pad len) ++ payloadBytes buffer len ++
        List.replicate (maxi_pad len) 0 ∧
    (frameSinkWrites s buffer len).pos = (frameSinkWrites s buffer len).data.length := by
  have hle : le32I ((len : Int) + (maxi_pad len : Int)) = le32 (len + maxi_pad len) := by
    rw [show ((len : Int) + (maxi_pad len : Int)) = ((len + maxi_pad len : Nat) : Int) by
      push_cast; ring, le32I_natCast]
  have h1 := writeBytes_ok s tag00dc hpos
  have h2 := writeBytes_ok (writeBytes s tag00dc)
    (le32I ((len : Int) + (maxi_pad len : Int))) h1.2
  have h3 := writeBytes_ok (writeBytes (writeBytes s tag00dc)
    (le32I ((len : Int) + (maxi_pad len : Int)))) (payloadBytes buffer len) h2.2
  simp only [frameSinkWrites, write_int]
  by_cases hp : maxi_pad len = 0
  · rw [if_pos hp]
    refine ⟨?_, h3.2⟩
    rw [h3.1, h2.1, h1.1, hle, hp]
    simp
  · rw [if_neg hp]
    have h4 := writeBytes_ok _ (List.replicate (maxi_pad len) 0) h3.2
    refine ⟨?_, h4.2⟩
    rw [h4.1, h3.1, h2.1, h1.1, hle]

theorem audioSinkWrites_data (s : Sink) (buffer : Nat → Nat) (len : Nat)
    (hpos : s.pos = s.data.length) :
    (audioSinkWrites s buffer len).data =
      s.data ++ tag01wb ++ le32 (len + maxi_pad len) ++ payloadBytes buffer len ++
        List.replicate (maxi_pad len) 0 ∧
    (audioSinkWrites s buffer len).pos = (audioSinkWrites s buffer len).data.length := by
  have hle : le32I ((len : Int) + (maxi_pad len : Int)) = le32 (len + maxi_pad len) := by
    rw [show ((len : Int) + (maxi_pad len : Int)) = ((len + maxi_pad len : Nat) : Int) by
      push_cast; ring, le32I_natCast]
  have h1 := writeBytes_ok s tag01wb hpos
  have h2 := writeBytes_ok (writeBytes s tag01wb)
    (le32I ((len : Int) + (maxi_pad len : Int))) h1.2
  have h3 := writeBytes_ok (writeBytes (writeBytes s tag01wb)
    (le32I ((len : Int) + (maxi_pad len : Int)))) (payloadBytes buffer len) h2.2
  simp only [audioSinkWrites, write_int]
  by_cases hp : maxi_pad len = 0
  · rw [if_pos hp]
    refine ⟨?_, h3.2⟩
    rw [h3.1, h2.1, h1.1, hle, hp]
    simp
  · rw [if_neg hp]
    have h4 := writeBytes_ok _ (List.replicate (maxi_pad len) 0) h3.2
    refine ⟨?_, h4.2⟩
    rw [h4.1, h3.1, h2.1, h1.1, hle]

theorem gwavi_add_frame_state (g : Gwavi) (buffer : Nat → Nat) (len : Nat) (l : List Nat)
    (wf : WriteFaults) (hoff : g.offsets = some l) :
    (gwavi_add_frame g buffer len true wf).2.offset_count = g.offset_count + 1 ∧
    (gwavi_add_frame g buffer len true wf).2.stream_header_v.data_length =
      g.stream_header_v.data_length + 1 ∧
    (gwavi_add_frame g buffer len true wf).2.offsets = some (l ++ [videoEntry len]) := by
  by_cases hg : g.offsets_len ≤ g.offset_count + 1 <;>
    simp only [gwavi_add_frame, hg, hoff, if_true, if_false, ite_true, ite_false] <;>
    refine ⟨?_, ?_, ?_⟩ <;>
    (repeat' split) <;> rfl

theorem gwavi_open_offsets (width height : Int) (fourcc : FourCC) (fps : Int)
    (audioCfg : Option GwaviAudio) :
    (gwavi_open width height fourcc fps audioCfg).offsets = some [] := rfl

theorem gwavi_open_counters (width height : Int) (fourcc : FourCC) (fps : Int)
    (audioCfg : Option GwaviAudio) :
    (gwavi_open width height fourcc fps audioCfg).offset_count = 0 ∧
    (gwavi_open width height fourcc fps audioCfg).offsets_ptr = 0 ∧
    (gwavi_open width height fourcc fps audioCfg).stream_header_v.data_length = 0 ∧
    (gwavi_open width height fourcc fps audioCfg).stream_header_a.data_length = 0 := by
  cases audioCfg <;> exact ⟨rfl, rfl, rfl, rfl⟩

theorem gwavi_close_number_of_frames (g : Gwavi) :
    (gwavi_close g).avi_header.number_of_frames = g.stream_header_v.data_length := by
  simp only [gwavi_close]

theorem gwavi_close_stream_header_a (g : Gwavi) :
    (gwavi_close g).stream_header_a = g.stream_header_a := by
  simp only [gwavi_close]

theorem runOps_spec (ops : List WriterOp) : ∀ (g : Gwavi) (l : List Nat),
    g.offsets = some l →
    (runOps g ops).offsets = some (l ++ entriesOf ops) ∧
    (runOps g ops).offset_count = g.offset_count + ops.length ∧
    (runOps g ops).offsets_ptr = g.offsets_ptr + ops.length ∧
    (runOps g ops).stream_header_v.data_length =
      g.stream_header_v.data_length + countFrames ops ∧
    (runOps g ops).stream_header_a.data_length =
      g.stream_header_a.data_length + audioSum32 ops := by
  induction ops with
  | nil =>
    intro g l hoff
    simp [runOps, entriesOf, countFrames, audioSum32, hoff]
  | cons op ops ih =>
    intro g l hoff
    cases op with
    | frame b len =>
      have hadd := gwavi_add_frame_allOk g b len l hoff
      have hoff2 : (gwavi_add_frame g b len true allOk).2.offsets =
          some (l ++ [videoEntry len]) := by rw [hadd]
      obtain ⟨e1, e2, e3, e4, e5⟩ := ih _ _ hoff2
      have hrun : runOps g (.frame b len :: ops) =
          runOps (gwavi_add_frame g b len true allOk).2 ops := rfl
      rw [hrun]
      refine ⟨?_, ?_, ?_, ?_, ?_⟩
      · rw [e1]; simp [entriesOf]
      · rw [e2, hadd]; simp; omega
      · rw [e3, hadd]; simp; omega
      · rw [e4, hadd]; simp [countFrames]; omega
      · rw [e5, hadd]; simp [audioSum32]
    | audioChunk b len =>
      have hadd := gwavi_add_audio_allOk g b len l hoff
      have hoff2 : (gwavi_add_audio g b len true allOk).2.offsets =
          some (l ++ [audioEntry len]) := by rw [hadd]
      obtain ⟨e1, e2, e3, e4, e5⟩ := ih _ _ hoff2
      have hrun : runOps g (.audioChunk b len :: ops) =
          runOps (gwavi_add_audio g b len true allOk).2 ops := rfl
      rw [hrun]
      refine ⟨?_, ?_, ?_, ?_, ?_⟩
      · rw [e1]; simp [entriesOf]
      · rw [e2, hadd]; simp; omega
      · rw [e3, hadd]; simp; omega
      · rw [e4, hadd]; simp [countFrames]
      · rw [e5, hadd]; simp [audioSum32]; omega

/-! ### Claim C3 -/

/-- C3: on a successful close, with `T` the sink position when `gwavi_close`
starts, the 4-byte placeholder at the recorded `marker` offset is overwritten
with `T - marker - 4` (the `movi` list size); with `T3` the position after the
header rewrite, the placeholder at byte offset 4 is overwritten with `T3 - 8`
(the overall RIFF size); each placeholder is patched exactly once, and the
patches happen in this order: `movi` size, then index, then AVI header
rewrite at offset 12, then RIFF size — the write log of the close is exactly
these four writes, in order. -/
theorem c3_close_patches (g : Gwavi) (T T3 : Nat) (ib hb : List Nat)
    (hT : T = g.out.pos)
    (hib : ib = indexBytes g.offset_count (g.offsets.getD []))
    (hhb : hb = aviHeaderChunkBytes
      { g.avi_header with number_of_frames := g.stream_header_v.data_length })
    (hT3 : T3 = T + ib.length)
    (hmark : 12 + hb.length ≤ g.marker)
    (hmarkT : g.marker + 4 ≤ T) :
    (gwavi_close g).out.log = g.out.log ++
      [(g.marker, le32 (T - g.marker - 4)), (T, ib), (12, hb), (4, le32 (T3 - 8))] ∧
    readD (gwavi_close g).out.data g.marker 4 = le32 (T - g.marker - 4) ∧
    readD (gwavi_close g).out.data 4 4 = le32 (T3 - 8) := by
  subst hT hT3
  have hbmk : hb = aviHeaderChunkBytes
      ⟨g.avi_header.time_delay, g.avi_header.data_rate, g.avi_header.flags,
        g.avi_header.data_streams, g.stream_header_v.data_length, g.avi_header.width,
        g.avi_header.height, g.avi_header.buffer_size⟩ := hhb
  have e1 : ((g.out.pos : Int) - (g.marker : Int) - 4) =
      ((g.out.pos - g.marker - 4 : Nat) : Int) := by omega
  simp only [gwavi_close, write_int, writeBytes, seekTo, length_le32]
  rw [← hib, ← hbmk]
  have e2 : ((g.out.pos + ib.length : Nat) : Int) - 8 =
      ((g.out.pos + ib.length - 8 : Nat) : Int) := by omega
  rw [e1, e2]
  simp only [le32I_natCast]
  refine ⟨by simp, ?_, ?_⟩
  · rw [readD_storeBytes_right _ _ _ _ _ (by simp only [length_le32]; omega),
      readD_storeBytes_right _ _ _ _ _ (by omega),
      readD_storeBytes_left _ _ _ _ _ (by omega),
      readD_storeBytes_self _ _ _ _ (length_le32 _)]
  · rw [readD_storeBytes_self _ _ _ _ (length_le32 _)]

/-- A concrete writer for witnesses: the spec's section-8 scenario
`gwavi_open("out.avi", 320, 240, "XVID", 25, NULL)` (`"XVID"` is bytes
88, 86, 73, 68). -/
def sampleOpen : Gwavi := gwavi_open 320 240 ⟨88, 86, 73, 68⟩ 25 none

theorem c3_close_patches_witness :
    readD (gwavi_close sampleOpen).out.data sampleOpen.marker 4 = le32 4 ∧
    readD (gwavi_close sampleOpen).out.data 4 4 = le32 88 := by
  have h := c3_close_patches sampleOpen sampleOpen.out.pos
    (sampleOpen.out.pos +
      (indexBytes sampleOpen.offset_count (sampleOpen.offsets.getD [])).length)
    (indexBytes sampleOpen.offset_count (sampleOpen.offsets.getD []))
    (aviHeaderChunkBytes
      { sampleOpen.avi_header with
          number_of_frames := sampleOpen.stream_header_v.data_length })
    rfl rfl rfl rfl (by decide) (by decide)
  refine ⟨?_, ?_⟩
  · have e : sampleOpen.out.pos - sampleOpen.marker - 4 = 4 := by decide
    have h1 := h.2.1
    rw [e] at h1
    exact h1
  · have e : sampleOpen.out.pos +
        (indexBytes sampleOpen.offset_count (sampleOpen.offsets.getD [])).length - 8 =
        88 := by decide
    have h2 := h.2.2
    rw [e] at h2
    exact h2

/-! ### Claims C1, C2 and C9: padding, chunk layout, index-entry packing -/

/-- C1 (amended): for every successful append whose padded length satisfies
`len + padding < 2^31`, a video frame appended by `gwavi_add_frame` records
the index entry `len + padding` with bit 31 clear, and an audio chunk
appended by `gwavi_add_audio` records `(len + padding) | 0x80000000`, i.e.
`len + padding + 2^31` — the same low 31 bits with bit 31 set.  (The
unamended claim, without the `< 2^31` proviso, fails: see the
counterexample.) -/
theorem c1_index_entry_packing (g g' : Gwavi) (buffer buffer' : Nat → Nat) (len : Nat)
    (l l' : List Nat)
    (hlen : len + maxi_pad len < 2^31)
    (hv : g.offsets = some l) (ha : g'.offsets = some l') :
    ((gwavi_add_frame g buffer len true allOk).1 = .ok ∧
     (gwavi_add_frame g buffer len true allOk).2.offsets =
       some (l ++ [len + maxi_pad len]) ∧
     Nat.testBit (len + maxi_pad len) 31 = false) ∧
    ((gwavi_add_audio g' buffer' len true allOk).1 = .ok ∧
     (gwavi_add_audio g' buffer' len true allOk).2.offsets =
       some (l' ++ [len + maxi_pad len + 2^31]) ∧
     (len + maxi_pad len + 2^31) % 2^31 = len + maxi_pad len ∧
     Nat.testBit (len + maxi_pad len + 2^31) 31 = true) := by
  have hv32 : videoEntry len = len + maxi_pad len := videoEntry_of_lt (by omega)
  have ha32 : audioEntry len = len + maxi_pad len + 2^31 := audioEntry_of_lt hlen
  refine ⟨⟨?_, ?_, ?_⟩, ?_, ?_, ?_, ?_⟩
  · rw [gwavi_add_frame_allOk g buffer len l hv]
  · rw [gwavi_add_frame_allOk g buffer len l hv, ← hv32]
  · exact Nat.testBit_lt_two_pow hlen
  · rw [gwavi_add_audio_allOk g' buffer' len l' ha]
  · rw [gwavi_add_audio_allOk g' buffer' len l' ha, ← ha32]
  · rw [Nat.add_mod_right, Nat.mod_eq_of_lt hlen]
  · rw [Nat.add_comm, Nat.testBit_two_pow_add_eq, Nat.testBit_lt_two_pow hlen]
    rfl

/-- Witness for C1 at `len = 4` on the spec's concrete open scenario. -/
theorem c1_index_entry_packing_witness :
    ((gwavi_add_frame sampleOpen (fun _ => 0) 4 true allOk).2.offsets = some [4]) ∧
    ((gwavi_add_audio sampleOpen (fun _ => 0) 4 true allOk).2.offsets =
      some [4 + 2^31]) := by
  have h := c1_index_entry_packing sampleOpen sampleOpen (fun _ => 0) (fun _ => 0) 4
    [] [] (by decide) rfl rfl
  have e : (4 : Nat) + maxi_pad 4 = 4 := by decide
  constructor
  · have h1 := h.1.2.1
    rw [e] at h1
    exact h1
  · have h2 := h.2.2.1
    rw [e] at h2
    exact h2

/-- Counterexample to C1 as stated: the append of a video frame of length
`2^31` succeeds, yet the recorded index entry has bit 31 set — on the claim's
packing convention it is indistinguishable from an audio entry. -/
theorem c1_index_entry_packing_counterexample :
    (gwavi_add_frame sampleOpen (fun _ => 0) (2^31) true allOk).1 = .ok ∧
    (gwavi_add_frame sampleOpen (fun _ => 0) (2^31) true allOk).2.offsets =
      some [videoEntry (2^31)] ∧
    Nat.testBit (videoEntry (2^31)) 31 = true := by
  have h := gwavi_add_frame_allOk sampleOpen (fun _ => 0) (2^31) [] rfl
  refine ⟨by rw [h], by rw [h]; simp, by decide⟩

/-- C2: for every length `len ≥ 0`, `gwavi_add_frame` (and likewise
`gwavi_add_audio`) computes `padding = (4 - len % 4) % 4`, writes the 4-byte
little-endian chunk length `len + padding` after the tag, then the `len`
payload bytes, then exactly `padding` zero bytes; `len = 0` succeeds with a
0-byte payload, 0 pad bytes, and index entry value 0. -/
theorem c2_append_write_layout (g g' : Gwavi) (buffer buffer' : Nat → Nat) (len : Nat)
    (l l' : List Nat)
    (hv : g.offsets = some l) (hpos : g.out.pos = g.out.data.length)
    (ha : g'.offsets = some l') (hpos' : g'.out.pos = g'.out.data.length) :
    maxi_pad len = (4 - len % 4) % 4 ∧
    (gwavi_add_frame g buffer len true allOk).1 = .ok ∧
    (gwavi_add_frame g buffer len true allOk).2.out.data =
      g.out.data ++ tag00dc ++ le32 (len + maxi_pad len) ++ payloadBytes buffer len ++
        List.replicate (maxi_pad len) 0 ∧
    (gwavi_add_audio g' buffer' len true allOk).1 = .ok ∧
    (gwavi_add_audio g' buffer' len true allOk).2.out.data =
      g'.out.data ++ tag01wb ++ le32 (len + maxi_pad len) ++ payloadBytes buffer' len ++
        List.replicate (maxi_pad len) 0 ∧
    (len = 0 → maxi_pad len = 0 ∧ payloadBytes buffer len = [] ∧
      (gwavi_add_frame g buffer len true allOk).2.offsets = some (l ++ [0])) := by
  refine ⟨maxi_pad_eq len, ?_, ?_, ?_, ?_, ?_⟩
  · rw [gwavi_add_frame_allOk g buffer len l hv]
  · rw [gwavi_add_frame_allOk g buffer len l hv]
    exact (frameSinkWrites_data g.out buffer len hpos).1
  · rw [gwavi_add_audio_allOk g' buffer' len l' ha]
  · rw [gwavi_add_audio_allOk g' buffer' len l' ha]
    exact (audioSinkWrites_data g'.out buffer' len hpos').1
  · intro h0
    subst h0
    refine ⟨rfl, rfl, ?_⟩
    rw [gwavi_add_frame_allOk g buffer 0 l hv]
    simp [videoEntry, maxi_pad]

/-- Witness for C2: a 5-byte frame on the spec's concrete open scenario gets
3 pad bytes and a length word of 8; a 0-byte frame records index entry 0. -/
theorem c2_append_write_layout_witness :
    (gwavi_add_frame sampleOpen (fun i => i + 1) 5 true allOk).2.out.data =
      sampleOpen.out.data ++ tag00dc ++ le32 8 ++ payloadBytes (fun i => i + 1) 5 ++
        List.replicate 3 0 ∧
    (gwavi_add_frame sampleOpen (fun _ => 0) 0 true allOk).2.offsets = some [0] := by
  have h := c2_append_write_layout sampleOpen sampleOpen (fun i => i + 1) (fun i => i + 1)
    5 [] [] rfl (by decide) rfl (by decide)
  have h0 := c2_append_write_layout sampleOpen sampleOpen (fun _ => 0) (fun _ => 0)
    0 [] [] rfl (by decide) rfl (by decide)
  constructor
  · have h1 := h.2.2.1
    rw [show (5 : Nat) + maxi_pad 5 = 8 from by decide,
      show maxi_pad 5 = 3 from by decide] at h1
    exact h1
  · exact (h0.2.2.2.2.2 rfl).2.2

/-- C9 (amended): the index-entry tagging of video chunks is faithful exactly
below `2^31`: for `len + padding < 2^31` the stored entry has bit 31 clear
and close-time tag reconstruction yields the video tag `"00dc"`; for
`2^31 ≤ len + padding < 2^32` the stored (32-bit truncated) entry has bit 31
set, reconstructs as the audio tag `"01wb"`, and coincides with the entry of
an audio chunk of length `len + padding - 2^31`.  (For `len + padding ≥ 2^32`
even this fails — see the counterexample.) -/
theorem c9_entry_tagging_threshold (len : Nat) :
    (len + maxi_pad len < 2^31 →
      Nat.testBit (videoEntry len) 31 = false ∧ idxTag (videoEntry len) = tag00dc) ∧
    (2^31 ≤ len + maxi_pad len → len + maxi_pad len < 2^32 →
      Nat.testBit (videoEntry len) 31 = true ∧ idxTag (videoEntry len) = tag01wb ∧
      videoEntry len = audioEntry (len + maxi_pad len - 2^31)) := by
  constructor
  · intro hlt
    have hv : videoEntry len = len + maxi_pad len := videoEntry_of_lt (by omega)
    have hb : Nat.testBit (videoEntry len) 31 = false := by
      rw [hv]; exact Nat.testBit_lt_two_pow hlt
    exact ⟨hb, by rw [idxTag, hb]; rfl⟩
  · intro hge hlt
    have hv : videoEntry len = len + maxi_pad len := videoEntry_of_lt hlt
    have hdiv : (len + maxi_pad len) / 2^31 = 1 := by omega
    have hb : Nat.testBit (videoEntry len) 31 = true := by
      rw [hv, Nat.testBit_to_div_mod, hdiv]
      rfl
    refine ⟨hb, by rw [idxTag, hb]; rfl, ?_⟩
    have hm4 : (len + maxi_pad len - 2^31) % 4 = 0 := by
      have h4 := dvd_four_add_maxi_pad len
      omega
    have hmp : maxi_pad (len + maxi_pad len - 2^31) = 0 := maxi_pad_of_mod_eq_zero hm4
    have hlt' : len + maxi_pad len - 2^31 < 2^31 := by omega
    rw [hv, audioEntry_no_pad hmp, lor_high_bit_mod hlt',
      show len + maxi_pad len - 2^31 + 2^31 = len + maxi_pad len from by omega]
    exact (Nat.mod_eq_of_lt hlt).symm

/-- Witness for C9 at `len = 4` (below the threshold) and `len = 2^31` (at
the threshold). -/
theorem c9_entry_tagging_threshold_witness :
    Nat.testBit (videoEntry 4) 31 = false ∧
    Nat.testBit (videoEntry (2^31)) 31 = true ∧
    videoEntry (2^31) = audioEntry (2^31 + maxi_pad (2^31) - 2^31) := by
  have h1 := (c9_entry_tagging_threshold 4).1 (by decide)
  have h2 := (c9_entry_tagging_threshold (2^31)).2 (by decide) (by decide)
  exact ⟨h1.1, h2.1, h2.2.2⟩

/-- Counterexample to C9 as stated: a video frame with `len = 2^32` has
`len + padding = 2^32 ≥ 2^31`, yet the stored 32-bit entry is 0 and its
bit 31 is clear, so the second half of the claim fails without the `< 2^32`
bound. -/
theorem c9_entry_tagging_threshold_counterexample :
    2^31 ≤ 2^32 + maxi_pad (2^32) ∧
    videoEntry (2^32) = 0 ∧
    Nat.testBit (videoEntry (2^32)) 31 = false ∧
    (gwavi_add_frame sampleOpen (fun _ => 0) (2^32) true allOk).2.offsets =
      some [videoEntry (2^32)] := by
  refine ⟨by decide, by decide, by decide, ?_⟩
  rw [gwavi_add_frame_allOk sampleOpen (fun _ => 0) (2^32) [] rfl]
  simp

/-! ### Claims C4 and C5: counters across interleavings -/

/-- C5: after `gwavi_open` and after every interleaving of successful
appends, the number of recorded index entries equals the global chunk
counter (`offsets_ptr = offset_count`), and both are incremented exactly
once per append (they equal the number of appends). -/
theorem c5_index_count_invariant (width height : Int) (fourcc : FourCC) (fps : Int)
    (audioCfg : Option GwaviAudio) (ops : List WriterOp) :
    (runOps (gwavi_open width height fourcc fps audioCfg) ops).offsets_ptr =
      (runOps (gwavi_open width height fourcc fps audioCfg) ops).offset_count ∧
    ((runOps (gwavi_open width height fourcc fps audioCfg) ops).offsets.getD []).length =
      (runOps (gwavi_open width height fourcc fps audioCfg) ops).offset_count ∧
    (runOps (gwavi_open width height fourcc fps audioCfg) ops).offset_count =
      ops.length := by
  obtain ⟨e1, e2, e3, -, -⟩ := runOps_spec ops (gwavi_open width height fourcc fps audioCfg)
    [] (gwavi_open_offsets width height fourcc fps audioCfg)
  obtain ⟨c1, c2, -, -⟩ := gwavi_open_counters width height fourcc fps audioCfg
  refine ⟨?_, ?_, ?_⟩
  · rw [e2, e3, c1, c2]
  · rw [e1, e2, c1]
    simp [entriesOf]
  · rw [e2, c1]
    omega

/-- C4 (amended): after `N` successful `gwavi_add_frame` calls and `M`
successful `gwavi_add_audio` calls in any interleaving, followed by
`gwavi_close`, the AVI header's `number_of_frames` equals `N` (audio appends
never change the video frame count), and the audio stream header's
`data_length` equals the sum over the audio appends of the `(int)`-cast
increment `(len + padding) % 2^32` of `gwavi.c` line 308 (video appends
never change it) — which is the claimed sum of `len + padding` whenever
every audio chunk's padded length is below `2^32`.  (The unamended claim,
with the untruncated sum, fails: see the counterexample.) -/
theorem c4_close_frame_and_audio_counts (width height : Int) (fourcc : FourCC) (fps : Int)
    (audioCfg : Option GwaviAudio) (ops : List WriterOp) :
    (gwavi_close (runOps (gwavi_open width height fourcc fps audioCfg) ops)).avi_header.number_of_frames =
      countFrames ops ∧
    (gwavi_close (runOps (gwavi_open width height fourcc fps audioCfg) ops)).stream_header_a.data_length =
      audioSum32 ops := by
  obtain ⟨-, -, -, e4, e5⟩ := runOps_spec ops (gwavi_open width height fourcc fps audioCfg)
    [] (gwavi_open_offsets width height fourcc fps audioCfg)
  obtain ⟨-, -, c3, c4⟩ := gwavi_open_counters width height fourcc fps audioCfg
  constructor
  · rw [gwavi_close_number_of_frames, e4, c3]
    omega
  · rw [gwavi_close_stream_header_a, e5, c4]
    omega

/-- Counterexample to C4 as stated: one successful audio append of length
`2^32` followed by close leaves `data_length = 0` — the source adds
`(int)(2^32) = 0` at line 308 — while the claimed sum of `len + padding`
over the audio writes is `2^32`. -/
theorem c4_close_frame_and_audio_counts_counterexample :
    (gwavi_close (runOps sampleOpen
      [WriterOp.audioChunk (fun _ => 0) (2^32)])).stream_header_a.data_length = 0 ∧
    audioSum [WriterOp.audioChunk (fun _ => 0) (2^32)] = 2^32 ∧
    (0 : Nat) ≠ 2^32 := by
  have hrun : runOps sampleOpen [WriterOp.audioChunk (fun _ => 0) (2^32)] =
      (gwavi_add_audio sampleOpen (fun _ => 0) (2^32) true allOk).2 := rfl
  refine ⟨?_, by decide, by decide⟩
  rw [gwavi_close_stream_header_a, hrun,
    gwavi_add_audio_allOk sampleOpen (fun _ => 0) (2^32) [] rfl]
  decide

/-! ### Claim C6: the unchecked realloc -/

/-- A writer whose 1024-entry offsets buffer is full: the next append takes
the growth branch (`offset_count` becomes 1024 ≥ `offsets_len`). -/
def fullBufferWriter : Gwavi :=
  { sampleOpen with offset_count := 1023, offsets_ptr := 1023,
                    offsets := some (List.replicate 1023 0) }

/-- C6 (the claim is right, the code is wrong): when the index buffer must
grow and the `realloc` fails, `gwavi_add_frame` / `gwavi_add_audio` do NOT
detect the failure — the source never checks the `realloc` result (`gwavi.c`
lines 226-230 and 279-283) — and instead store through the nulled buffer:
the outcome is `crash` (undefined behaviour), not the error result `err`
that the claim (and the functions' own `@return 0 on success, -1 on error`
documentation) promises. -/
theorem c6_alloc_failure_not_surfaced :
    (gwavi_add_frame fullBufferWriter (fun _ => 0) 4 false allOk).1 = .crash ∧
    (gwavi_add_frame fullBufferWriter (fun _ => 0) 4 false allOk).1 ≠ .err ∧
    (gwavi_add_audio fullBufferWriter (fun _ => 0) 4 false allOk).1 = .crash ∧
    (gwavi_add_audio fullBufferWriter (fun _ => 0) 4 false allOk).1 ≠ .err := by
  refine ⟨rfl, by decide, rfl, by decide⟩

/-! ### Claim C7: FourCC packing -/

/-- C7: for every 4-byte FourCC (four ASCII bytes, hence each below 128 —
spec glossary: a FourCC is a 4-byte ASCII code), the `compression_type`
stored by `gwavi_open` and by `gwavi_set_codec` is the little-endian packing
`b0 + b1*2^8 + b2*2^16 + b3*2^24`. -/
theorem c7_fourcc_little_endian_packing (width height fps : Int)
    (audioCfg : Option GwaviAudio) (g : Gwavi) (f : FourCC)
    (h0 : f.b0 < 128) (h1 : f.b1 < 128) (h2 : f.b2 < 128) (h3 : f.b3 < 128) :
    (gwavi_open width height f fps audioCfg).stream_format_v.compression_type =
      f.b0 + f.b1 * 2^8 + f.b2 * 2^16 + f.b3 * 2^24 ∧
    (gwavi_set_codec g f).stream_format_v.compression_type =
      f.b0 + f.b1 * 2^8 + f.b2 * 2^16 + f.b3 * 2^24 := by
  have key : compressionType f = f.b0 + f.b1 * 2^8 + f.b2 * 2^16 + f.b3 * 2^24 := by
    obtain ⟨b0, b1, b2, b3⟩ := f
    simp only [compressionType, cChar] at *
    rw [if_pos (show b0 % 256 < 128 by omega), if_pos (show b1 % 256 < 128 by omega),
      if_pos (show b2 % 256 < 128 by omega), if_pos (show b3 % 256 < 128 by omega),
      Int.emod_eq_of_lt (by omega) (by omega : (b0 : Int) < 256),
      Int.emod_eq_of_lt (by omega) (by omega : (b1 : Int) < 256),
      Int.emod_eq_of_lt (by omega) (by omega : (b2 : Int) < 256),
      Int.emod_eq_of_lt (by omega) (by omega : (b3 : Int) < 256)]
    have hlt : (b3 : Int) * 2^24 + (b2 : Int) * 2^16 + (b1 : Int) * 2^8 + (b0 : Int) <
        (2 : Int)^32 := by
      have e : ((2 : Int)^32) = 4294967296 := by norm_num
      rw [e]
      have e24 : ((2 : Int)^24) = 16777216 := by norm_num
      have e16 : ((2 : Int)^16) = 65536 := by norm_num
      have e8 : ((2 : Int)^8) = 256 := by norm_num
      rw [e24, e16, e8]
      omega
    have hge : (0 : Int) ≤ (b3 : Int) * 2^24 + (b2 : Int) * 2^16 + (b1 : Int) * 2^8 +
        (b0 : Int) := by positivity
    rw [Int.emod_eq_of_lt hge hlt]
    have e24 : ((2 : Int)^24) = 16777216 := by norm_num
    have e16 : ((2 : Int)^16) = 65536 := by norm_num
    have e8 : ((2 : Int)^8) = 256 := by norm_num
    have n24 : ((2 : Nat)^24) = 16777216 := by norm_num
    have n16 : ((2 : Nat)^16) = 65536 := by norm_num
    have n8 : ((2 : Nat)^8) = 256 := by norm_num
    rw [e24, e16, e8, n24, n16, n8]
    omega
  constructor
  · simp only [gwavi_open]
    exact key
  · simp only [gwavi_set_codec]
    exact key

/-- Witness for C7 at the FourCC `"XVID"` (bytes 88, 86, 73, 68). -/
theorem c7_fourcc_little_endian_packing_witness :
    (gwavi_open 320 240 ⟨88, 86, 73, 68⟩ 25 none).stream_format_v.compression_type =
      88 + 86 * 2^8 + 73 * 2^16 + 68 * 2^24 :=
  (c7_fourcc_little_endian_packing 320 240 25 none sampleOpen ⟨88, 86, 73, 68⟩
    (by decide) (by decide) (by decide) (by decide)).1

/-! ### Claim C8: no rollback on a failed frame append -/

/-- C8: `gwavi_add_frame` is not atomic on failure — whenever it returns the
error result because one of its write steps failed, the global chunk counter
and the video frame count have already been incremented and the chunk's
index entry has already been recorded. -/
theorem c8_add_frame_not_atomic (g : Gwavi) (buffer : Nat → Nat) (len : Nat)
    (l : List Nat) (wf : WriteFaults) (hoff : g.offsets = some l)
    (hres : (gwavi_add_frame g buffer len true wf).1 = .err) :
    (gwavi_add_frame g buffer len true wf).2.offset_count = g.offset_count + 1 ∧
    (gwavi_add_frame g buffer len true wf).2.stream_header_v.data_length =
      g.stream_header_v.data_length + 1 ∧
    (gwavi_add_frame g buffer len true wf).2.offsets = some (l ++ [videoEntry len]) :=
  gwavi_add_frame_state g buffer len l wf hoff

/-- The fault oracle under which the first write (the `"00dc"` tag) fails. -/
def tagWriteFails : WriteFaults :=
  { tagOk := false, lenOk := true, payloadOk := true, padOk := true }

/-- Witness for C8: a frame append whose tag write fails on the spec's
concrete open scenario still bumped both counters and recorded the entry. -/
theorem c8_add_frame_not_atomic_witness :
    (gwavi_add_frame sampleOpen (fun _ => 0) 4 true tagWriteFails).2.offset_count = 1 ∧
    (gwavi_add_frame sampleOpen (fun _ => 0) 4 true tagWriteFails).2.stream_header_v.data_length = 1 ∧
    (gwavi_add_frame sampleOpen (fun _ => 0) 4 true tagWriteFails).2.offsets =
      some [videoEntry 4] := by
  have h := c8_add_frame_not_atomic sampleOpen (fun _ => 0) 4 [] tagWriteFails rfl rfl
  refine ⟨?_, ?_, ?_⟩
  · rw [h.1]
    decide
  · rw [h.2.1]
    decide
  · rw [h.2.2]
    simp

/-! ### Claim C10: the set-framerate frame condition -/

/-- C10: `gwavi_set_framerate` modifies only the video stream header's
`data_rate` and the AVI header's `time_delay`; every other field of the
writer state — in particular `avi_header.data_rate`, both `buffer_size`
fields, and the index state — is unchanged. -/
theorem c10_set_framerate_frame_condition (g : Gwavi) (fps : Int) :
    (gwavi_set_framerate g fps).stream_header_v.data_rate = fps ∧
    (gwavi_set_framerate g fps).avi_header.time_delay = framerateTimeDelay fps ∧
    (gwavi_set_framerate g fps).avi_header.data_rate = g.avi_header.data_rate ∧
    (gwavi_set_framerate g fps).avi_header.flags = g.avi_header.flags ∧
    (gwavi_set_framerate g fps).avi_header.data_streams = g.avi_header.data_streams ∧
    (gwavi_set_framerate g fps).avi_header.number_of_frames = g.avi_header.number_of_frames ∧
    (gwavi_set_framerate g fps).avi_header.width = g.avi_header.width ∧
    (gwavi_set_framerate g fps).avi_header.height = g.avi_header.height ∧
    (gwavi_set_framerate g fps).avi_header.buffer_size = g.avi_header.buffer_size ∧
    (gwavi_set_framerate g fps).stream_header_v.data_type = g.stream_header_v.data_type ∧
    (gwavi_set_framerate g fps).stream_header_v.codec = g.stream_header_v.codec ∧
    (gwavi_set_framerate g fps).stream_header_v.time_scale = g.stream_header_v.time_scale ∧
    (gwavi_set_framerate g fps).stream_header_v.buffer_size = g.stream_header_v.buffer_size ∧
    (gwavi_set_framerate g fps).stream_header_v.data_length = g.stream_header_v.data_length ∧
    (gwavi_set_framerate g fps).stream_format_v = g.stream_format_v ∧
    (gwavi_set_framerate g fps).stream_header_a = g.stream_header_a ∧
    (gwavi_set_framerate g fps).stream_format_a = g.stream_format_a ∧
    (gwavi_set_framerate g fps).out = g.out ∧
    (gwavi_set_framerate g fps).marker = g.marker ∧
    (gwavi_set_framerate g fps).offsets_ptr = g.offsets_ptr ∧
    (gwavi_set_framerate g fps).offsets_len = g.offsets_len ∧
    (gwavi_set_framerate g fps).offset_count = g.offset_count ∧
    (gwavi_set_framerate g fps).offsets = g.offsets := by
  refine ⟨rfl, rfl, rfl, rfl, rfl, rfl, rfl, rfl, rfl, rfl, rfl, rfl, rfl, rfl, rfl,
    rfl, rfl, rfl, rfl, rfl, rfl, rfl, rfl⟩
